import Mathlib

/-!
Verification of the natural-language command pipeline of the
mcp-server-simulator-ios-idb repository.

JavaScript strings are modelled as lists of characters, JavaScript numbers
as exact rationals, and JavaScript objects holding parameters as
association lists in insertion order.  Each definition below is a direct
translation of the function of the same name in the TypeScript source.
-/

deriving instance DecidableEq for Except

/-- Characters of a string literal, used to write JS string values. -/
def jstr (x : String) : List Char := x.data

/-- JS `String.prototype.toLowerCase`, modelled characterwise. -/
def jsToLower (l : List Char) : List Char := l.map Char.toLower

/-- JS `String.prototype.trim`: drop whitespace from both ends. -/
def jsTrim (l : List Char) : List Char :=
  ((l.dropWhile Char.isWhitespace).reverse.dropWhile Char.isWhitespace).reverse

/-- JS `a.includes(b)`: `b` occurs as a contiguous substring of `a`. -/
def jsIncludes (a b : List Char) : Bool :=
  a.tails.any (fun t => b.isPrefixOf t)

/-- JS object property read `m[k]` on an object with string keys. -/
def assocGet {β : Type} (m : List (List Char × β)) (k : List Char) : Option β :=
  match m with
  | [] => none
  | (k', v) :: rest => if k' = k then some v else assocGet rest k

/-!
## FuzzyMatcher (src/utils/FuzzyMatch.ts)

`levenshteinDistance` is the dynamic-programming matrix of the source,
computed row by row: row `i` of the matrix holds the distances between the
length-`j` prefixes of `str1` and the length-`i` prefix of `str2`.
-/

/-- One row of the Levenshtein matrix, cells `j ≥ 1`.  `diag` is
`matrix[i-1][j-1]`, `left` is `matrix[i][j-1]`, and `up :: ups` are the
cells `matrix[i-1][j..]` of the previous row. -/
def levRowAux (c2 : Char) : List Char → Nat → Nat → List Nat → List Nat
  | [], _, _, _ => []
  | _ :: _, _, _, [] => []
  | c1 :: cs, diag, left, up :: ups =>
    let v := if c2 = c1 then diag else 1 + min diag (min left up)
    v :: levRowAux c2 cs up v ups

/-- Builds the rows of the matrix for `i = 1 .. str2.length`, starting from
the row `prev` for index `i`, and returns the final row. -/
def levRows (s1 : List Char) : List Char → Nat → List Nat → List Nat
  | [], _, prev => prev
  | c2 :: cs2, i, prev =>
    levRows s1 cs2 (i + 1) ((i + 1) :: levRowAux c2 s1 (prev.headD 0) (i + 1) prev.tail)

/-- `FuzzyMatcher.levenshteinDistance`: the bottom-right cell
`matrix[str2.length][str1.length]` of the dynamic-programming matrix. -/
def levenshteinDistance (str1 str2 : List Char) : Nat :=
  (levRows str1 str2 0 (List.range (str1.length + 1))).getD str1.length 0

/-- `FuzzyMatcher.calculateScore`: similarity score in `[0,1]`. -/
def calculateScore (input target : List Char) : ℚ :=
  let distance := levenshteinDistance (jsToLower input) (jsToLower target)
  let maxLength := max input.length target.length
  if maxLength = 0 then 1 else 1 - (distance : ℚ) / (maxLength : ℚ)

/-- `FuzzyMatcher.containsMatch`: target contains input (case-insensitive). -/
def containsMatch (input target : List Char) : Bool :=
  jsIncludes (jsToLower target) (jsToLower input)

/-- `FuzzyMatcher.startsWithMatch`: target starts with input (case-insensitive). -/
def startsWithMatch (input target : List Char) : Bool :=
  (jsToLower input).isPrefixOf (jsToLower target)

/-- The boosted score computed per candidate inside `findMatches`. -/
def boostedScore (input target : List Char) : ℚ :=
  let score := calculateScore input target
  if startsWithMatch input target then min 1 (score + 3/10)
  else if containsMatch input target then min 1 (score + 2/10)
  else score

structure FuzzyMatchResult where
  item : List Char
  score : ℚ
  distance : Nat
deriving DecidableEq

/-- The JS sort comparator of `findMatches` read as a boolean "less or
equal": `compare a b ≤ 0`. -/
def fuzzyLe (a b : FuzzyMatchResult) : Bool :=
  if |a.score - b.score| < 1/100 then decide (a.distance ≤ b.distance)
  else decide (b.score ≤ a.score)

/-- Insert into a sorted list, keeping earlier elements first on ties:
models one step of the stable `Array.prototype.sort`. -/
def insertSorted (le : FuzzyMatchResult → FuzzyMatchResult → Bool) (x : FuzzyMatchResult) :
    List FuzzyMatchResult → List FuzzyMatchResult
  | [] => [x]
  | y :: ys => if le x y then x :: y :: ys else y :: insertSorted le x ys

/-- Stable sort modelling JS `Array.prototype.sort` with a comparator
(ECMAScript requires stability; with this comparator, which is not
transitive, the standard leaves the order otherwise implementation
defined, so a stable insertion sort is used as the model). -/
def sortResults (le : FuzzyMatchResult → FuzzyMatchResult → Bool) :
    List FuzzyMatchResult → List FuzzyMatchResult
  | [] => []
  | x :: xs => insertSorted le x (sortResults le xs)

/-- `FuzzyMatcher.findMatches`. -/
def findMatches (input : List Char) (candidates : List (List Char))
    (maxResults : Nat) (minScore : ℚ) : List FuzzyMatchResult :=
  if jsTrim input = [] then
    (candidates.take maxResults).map (fun item => ⟨item, 1/2, 0⟩)
  else
    let normalizedInput := jsToLower (jsTrim input)
    let results := candidates.filterMap (fun candidate =>
      let finalScore := boostedScore normalizedInput candidate
      let distance := levenshteinDistance normalizedInput (jsToLower candidate)
      if minScore ≤ finalScore then some ⟨candidate, finalScore, distance⟩ else none)
    (sortResults fuzzyLe results).take maxResults

/-!
## Command model (src/orchestrator/interfaces/IOrchestratorCommand.ts)
-/

/-- The closed `CommandType` enumeration of the orchestrator. -/
inductive CommandType where
  | CREATE_SIMULATOR_SESSION
  | TERMINATE_SIMULATOR_SESSION
  | LIST_AVAILABLE_SIMULATORS
  | LIST_BOOTED_SIMULATORS
  | BOOT_SIMULATOR
  | SHUTDOWN_SIMULATOR
  | INSTALL_APP
  | LAUNCH_APP
  | TERMINATE_APP
  | UNINSTALL_APP
  | LIST_APPS
  | TAP
  | SWIPE
  | PRESS_DEVICE_BUTTON
  | INPUT_TEXT
  | PRESS_KEY
  | PRESS_KEY_SEQUENCE
  | DESCRIBE_ELEMENTS
  | DESCRIBE_POINT
  | TAKE_SCREENSHOT
  | CAPTURE_SCREEN
  | RECORD_VIDEO
  | STOP_RECORDING
  | GET_SYSTEM_LOGS
  | GET_APP_LOGS
  | GET_LOGS
  | START_DEBUG
  | STOP_DEBUG
  | DEBUG_STATUS
  | LIST_CRASH_LOGS
  | SHOW_CRASH_LOG
  | DELETE_CRASH_LOGS
  | INSTALL_DYLIB
  | OPEN_URL
  | CLEAR_KEYCHAIN
  | SET_LOCATION
  | ADD_MEDIA
  | APPROVE_PERMISSIONS
  | UPDATE_CONTACTS
  | FOCUS_SIMULATOR
  | IS_SIMULATOR_BOOTED
  | IS_APP_INSTALLED
  | SEQUENCE
  | CONDITIONAL
deriving DecidableEq

/-- An idealized JS number: an exact rational or NaN. -/
inductive JSNum where
  | val (q : ℚ)
  | nan
deriving DecidableEq

/-- Untyped JS parameter values as they occur in `ParseResult.parameters`. -/
inductive JSValue where
  | str (s : List Char)
  | num (n : JSNum)
  | bool (b : Bool)
  | undefined
deriving DecidableEq

/-- Numeric value of a non-empty all-digit character list. -/
def digitsVal (l : List Char) : Nat :=
  l.foldl (fun n c => 10 * n + (c.toNat - 48)) 0

/-- JS `Number(string)` on its decimal fragment: optional sign, digits with
an optional fractional part; a blank string is 0 and anything else is NaN
(the exotic forms such as exponents and hex are outside the model). -/
def parseJsNumber (sRaw : List Char) : JSNum :=
  let t := jsTrim sRaw
  if t = [] then JSNum.val 0 else
  let signDigits : ℚ × List Char :=
    match t with
    | '-' :: r => (-1, r)
    | '+' :: r => (1, r)
    | r => (1, r)
  match signDigits.2.splitOn '.' with
  | [ip] =>
    if ip ≠ [] ∧ ip.all Char.isDigit then JSNum.val (signDigits.1 * digitsVal ip)
    else JSNum.nan
  | [ip, fp] =>
    if (ip ≠ [] ∨ fp ≠ []) ∧ ip.all Char.isDigit ∧ fp.all Char.isDigit then
      JSNum.val (signDigits.1 * ((digitsVal ip : ℚ) + (digitsVal fp : ℚ) / (10 : ℚ) ^ fp.length))
    else JSNum.nan
  | _ => JSNum.nan

/-- JS `Number(v)` applied to a parameter value. -/
def jsNumberValue : JSValue → JSValue
  | JSValue.num n => JSValue.num n
  | JSValue.str s => JSValue.num (parseJsNumber s)
  | JSValue.bool true => JSValue.num (JSNum.val 1)
  | JSValue.bool false => JSValue.num (JSNum.val 0)
  | JSValue.undefined => JSValue.num JSNum.nan

/-- A JS object holding command parameters, keys in insertion order. -/
abbrev ParamMap := List (List Char × JSValue)

/-- JS property write `m[k] = v`: replaces in place, appends if absent. -/
def setKey : ParamMap → List Char → JSValue → ParamMap
  | [], k, v => [(k, v)]
  | (k', v') :: rest, k, v =>
    if k' = k then (k, v) :: rest else (k', v') :: setKey rest k v

/-!
## ParserToOrchestrator (src/adapters/ParserToOrchestrator.ts)
-/

/-- The bilingual `commandMappings` table, entries in insertion order. -/
def commandMappings : List (List Char × CommandType) := [
  (jstr "crear sesión", CommandType.CREATE_SIMULATOR_SESSION),
  (jstr "crear simulador", CommandType.CREATE_SIMULATOR_SESSION),
  (jstr "iniciar simulador", CommandType.CREATE_SIMULATOR_SESSION),
  (jstr "terminar sesión", CommandType.TERMINATE_SIMULATOR_SESSION),
  (jstr "cerrar simulador", CommandType.TERMINATE_SIMULATOR_SESSION),
  (jstr "listar simuladores", CommandType.LIST_AVAILABLE_SIMULATORS),
  (jstr "mostrar simuladores", CommandType.LIST_AVAILABLE_SIMULATORS),
  (jstr "listar simuladores arrancados", CommandType.LIST_BOOTED_SIMULATORS),
  (jstr "arrancar simulador", CommandType.BOOT_SIMULATOR),
  (jstr "apagar simulador", CommandType.SHUTDOWN_SIMULATOR),
  (jstr "create session", CommandType.CREATE_SIMULATOR_SESSION),
  (jstr "start simulator", CommandType.CREATE_SIMULATOR_SESSION),
  (jstr "launch simulator", CommandType.CREATE_SIMULATOR_SESSION),
  (jstr "end session", CommandType.TERMINATE_SIMULATOR_SESSION),
  (jstr "terminate session", CommandType.TERMINATE_SIMULATOR_SESSION),
  (jstr "close simulator", CommandType.TERMINATE_SIMULATOR_SESSION),
  (jstr "list simulators", CommandType.LIST_AVAILABLE_SIMULATORS),
  (jstr "show simulators", CommandType.LIST_AVAILABLE_SIMULATORS),
  (jstr "list booted simulators", CommandType.LIST_BOOTED_SIMULATORS),
  (jstr "show running simulators", CommandType.LIST_BOOTED_SIMULATORS),
  (jstr "boot simulator", CommandType.BOOT_SIMULATOR),
  (jstr "shutdown simulator", CommandType.SHUTDOWN_SIMULATOR),
  (jstr "instalar app", CommandType.INSTALL_APP),
  (jstr "instalar aplicación", CommandType.INSTALL_APP),
  (jstr "lanzar app", CommandType.LAUNCH_APP),
  (jstr "abrir app", CommandType.LAUNCH_APP),
  (jstr "iniciar app", CommandType.LAUNCH_APP),
  (jstr "cerrar app", CommandType.TERMINATE_APP),
  (jstr "terminar app", CommandType.TERMINATE_APP),
  (jstr "desinstalar app", CommandType.UNINSTALL_APP),
  (jstr "eliminar app", CommandType.UNINSTALL_APP),
  (jstr "borrar app", CommandType.UNINSTALL_APP),
  (jstr "listar apps", CommandType.LIST_APPS),
  (jstr "mostrar apps", CommandType.LIST_APPS),
  (jstr "install app", CommandType.INSTALL_APP),
  (jstr "launch app", CommandType.LAUNCH_APP),
  (jstr "terminate app", CommandType.TERMINATE_APP),
  (jstr "uninstall app", CommandType.UNINSTALL_APP),
  (jstr "remove app", CommandType.UNINSTALL_APP),
  (jstr "delete app", CommandType.UNINSTALL_APP),
  (jstr "list apps", CommandType.LIST_APPS),
  (jstr "show apps", CommandType.LIST_APPS),
  (jstr "tocar", CommandType.TAP),
  (jstr "pulsar", CommandType.TAP),
  (jstr "deslizar", CommandType.SWIPE),
  (jstr "tap", CommandType.TAP),
  (jstr "swipe", CommandType.SWIPE),
  (jstr "press device button", CommandType.PRESS_DEVICE_BUTTON),
  (jstr "input text", CommandType.INPUT_TEXT),
  (jstr "press key", CommandType.PRESS_KEY),
  (jstr "press key sequence", CommandType.PRESS_KEY_SEQUENCE),
  (jstr "describir elementos", CommandType.DESCRIBE_ELEMENTS),
  (jstr "describir todos los elementos", CommandType.DESCRIBE_ELEMENTS),
  (jstr "describir punto", CommandType.DESCRIBE_POINT),
  (jstr "describe elements", CommandType.DESCRIBE_ELEMENTS),
  (jstr "describe all elements", CommandType.DESCRIBE_ELEMENTS),
  (jstr "describe point", CommandType.DESCRIBE_POINT),
  (jstr "capturar pantalla", CommandType.CAPTURE_SCREEN),
  (jstr "captura", CommandType.CAPTURE_SCREEN),
  (jstr "logs del sistema", CommandType.GET_SYSTEM_LOGS),
  (jstr "logs de app", CommandType.GET_APP_LOGS),
  (jstr "grabar video", CommandType.RECORD_VIDEO),
  (jstr "detener grabación", CommandType.STOP_RECORDING),
  (jstr "take screenshot", CommandType.CAPTURE_SCREEN),
  (jstr "capture screen", CommandType.CAPTURE_SCREEN),
  (jstr "screenshot", CommandType.CAPTURE_SCREEN),
  (jstr "logs", CommandType.GET_LOGS),
  (jstr "get logs", CommandType.GET_LOGS),
  (jstr "record video", CommandType.RECORD_VIDEO),
  (jstr "stop recording", CommandType.STOP_RECORDING),
  (jstr "iniciar debug", CommandType.START_DEBUG),
  (jstr "parar debug", CommandType.STOP_DEBUG),
  (jstr "estado debug", CommandType.DEBUG_STATUS),
  (jstr "listar crash logs", CommandType.LIST_CRASH_LOGS),
  (jstr "mostrar crash log", CommandType.SHOW_CRASH_LOG),
  (jstr "eliminar crash logs", CommandType.DELETE_CRASH_LOGS),
  (jstr "start debug", CommandType.START_DEBUG),
  (jstr "stop debug", CommandType.STOP_DEBUG),
  (jstr "debug status", CommandType.DEBUG_STATUS),
  (jstr "list crash logs", CommandType.LIST_CRASH_LOGS),
  (jstr "show crash log", CommandType.SHOW_CRASH_LOG),
  (jstr "delete crash logs", CommandType.DELETE_CRASH_LOGS),
  (jstr "instalar dylib", CommandType.INSTALL_DYLIB),
  (jstr "abrir url", CommandType.OPEN_URL),
  (jstr "limpiar keychain", CommandType.CLEAR_KEYCHAIN),
  (jstr "establecer ubicación", CommandType.SET_LOCATION),
  (jstr "añadir media", CommandType.ADD_MEDIA),
  (jstr "aprobar permisos", CommandType.APPROVE_PERMISSIONS),
  (jstr "actualizar contactos", CommandType.UPDATE_CONTACTS),
  (jstr "enfocar simulador", CommandType.FOCUS_SIMULATOR),
  (jstr "install dylib", CommandType.INSTALL_DYLIB),
  (jstr "open url", CommandType.OPEN_URL),
  (jstr "clear keychain", CommandType.CLEAR_KEYCHAIN),
  (jstr "set location", CommandType.SET_LOCATION),
  (jstr "add media", CommandType.ADD_MEDIA),
  (jstr "approve permissions", CommandType.APPROVE_PERMISSIONS),
  (jstr "update contacts", CommandType.UPDATE_CONTACTS),
  (jstr "focus simulator", CommandType.FOCUS_SIMULATOR),
  (jstr "verificar simulador", CommandType.IS_SIMULATOR_BOOTED),
  (jstr "comprobar simulador", CommandType.IS_SIMULATOR_BOOTED),
  (jstr "verificar app", CommandType.IS_APP_INSTALLED),
  (jstr "comprobar app", CommandType.IS_APP_INSTALLED)
]

/-- `ParserToOrchestrator.mapToCommandType`: exact table lookup first, then
the first entry (in insertion order) whose key is a substring of the
lowercased input, else a hard error carrying only a message. -/
def mapToCommandType (naturalCommand : List Char) : Except (List Char) CommandType :=
  let lowerCommand := jsToLower naturalCommand
  match assocGet commandMappings lowerCommand with
  | some t => Except.ok t
  | none =>
    match commandMappings.find? (fun e => jsIncludes lowerCommand e.1) with
    | some e => Except.ok e.2
    | none =>
      Except.error
        (jstr "Could not map command \"" ++ naturalCommand ++ jstr "\" to a CommandType")

/-- One guarded numeric coercion `if (m.k !== undefined) m.k = Number(m.k)`. -/
def coerceNumKey (m : ParamMap) (k : List Char) : ParamMap :=
  match assocGet m k with
  | none => m
  | some JSValue.undefined => m
  | some v => setKey m k (jsNumberValue v)

/-- `ParserToOrchestrator.convertParameters` acting on the cloned map: the
clone of the input followed by the type-specific in-place coercions. -/
def convertParameters (commandType : CommandType) (parserParameters : ParamMap) : ParamMap :=
  let parameters := parserParameters
  match commandType with
  | CommandType.TAP =>
    coerceNumKey (coerceNumKey parameters (jstr "x")) (jstr "y")
  | CommandType.SWIPE =>
    coerceNumKey (coerceNumKey (coerceNumKey (coerceNumKey (coerceNumKey parameters
      (jstr "startX")) (jstr "startY")) (jstr "endX")) (jstr "endY")) (jstr "duration")
  | CommandType.CREATE_SIMULATOR_SESSION =>
    match assocGet parameters (jstr "autoboot") with
    | some (JSValue.str s) =>
      setKey parameters (jstr "autoboot") (JSValue.bool (jsToLower s == jstr "true"))
    | _ => parameters
  | _ => parameters

/-!
A small object heap, to state that `convertParameters` mutates only the
object allocated for its clone `parameters` and never the caller's map.
References are indices into the allocation list.
-/

structure Heap where
  objs : List ParamMap

def heapGet (h : Heap) (r : Nat) : ParamMap := h.objs.getD r []

def heapSet (h : Heap) (r : Nat) (m : ParamMap) : Heap := ⟨h.objs.set r m⟩

/-- The guarded numeric coercion as an in-place write through reference `r`. -/
def coerceNumAt (h : Heap) (r : Nat) (k : List Char) : Heap :=
  let m := heapGet h r
  match assocGet m k with
  | none => h
  | some JSValue.undefined => h
  | some v => heapSet h r (setKey m k (jsNumberValue v))

/-- `convertParameters` at the heap level: `let parameters = ...spread`
allocates a fresh object, and every subsequent write targets it. -/
def convertParametersHeap (commandType : CommandType) (h : Heap) (r : Nat) : Heap × Nat :=
  let rNew := h.objs.length
  let h1 : Heap := ⟨h.objs ++ [heapGet h r]⟩
  match commandType with
  | CommandType.TAP =>
    (coerceNumAt (coerceNumAt h1 rNew (jstr "x")) rNew (jstr "y"), rNew)
  | CommandType.SWIPE =>
    (coerceNumAt (coerceNumAt (coerceNumAt (coerceNumAt (coerceNumAt h1 rNew
      (jstr "startX")) rNew (jstr "startY")) rNew (jstr "endX")) rNew (jstr "endY")) rNew
      (jstr "duration"), rNew)
  | CommandType.CREATE_SIMULATOR_SESSION =>
    let m := heapGet h1 rNew
    match assocGet m (jstr "autoboot") with
    | some (JSValue.str s) =>
      (heapSet h1 rNew (setKey m (jstr "autoboot") (JSValue.bool (jsToLower s == jstr "true"))), rNew)
    | _ => (h1, rNew)
  | _ => (h1, rNew)

/-!
## Pattern parser and command registry
(src/parser/commands/BaseCommandDefinition.ts and the CommandRegistry in
src/orchestrator/interfaces/IOrchestratorCommand.ts)

A regular-expression pattern is abstracted as a function from the text to
an optional match object (the capture groups of `String.prototype.match`).
-/

abbrev MatchData := List (Option (List Char))

abbrev Pattern := List Char → Option MatchData

structure CommandDef where
  command : List Char
  patterns : List Pattern
  description : List Char
  requiredParameters : List (List Char)
  optionalParameters : List (List Char)
  examples : List (List Char)
  parameterExtractors : List (List Char × (MatchData → Option JSValue))

structure ParseResult where
  command : List Char
  parameters : ParamMap
  confidence : ℚ
  originalText : List Char
deriving DecidableEq

/-- The parameter map built by the extractor loop of `parseCommand`:
extractors returning undefined (`none`) do not populate an entry. -/
def buildParams (d : CommandDef) (m : MatchData) : ParamMap :=
  d.parameterExtractors.foldl (fun ps e =>
    match e.2 m with
    | some v => setKey ps e.1 v
    | none => ps) []

/-- `BaseCommandDefinition.parseCommand`: first matching pattern of the
first matching definition wins; the same pattern is re-run against the
case-preserving trimmed text for parameter extraction, falling back to the
lowercase match. -/
def parseCommand (definitions : List CommandDef) (text : List Char) : Option ParseResult :=
  let normalizedText := jsToLower (jsTrim text)
  let originalText := jsTrim text
  definitions.findSome? (fun d =>
    d.patterns.findSome? (fun p =>
      match p normalizedText with
      | some m =>
        some { command := d.command,
               parameters := buildParams d ((p originalText).getD m),
               confidence := 9/10,
               originalText := text }
      | none => none))

inductive ErrorType where
  | command_not_found
  | parameter_missing
  | validation_failed
deriving DecidableEq

structure EnhancedError where
  message : List Char
  suggestions : List (List Char)
  type : ErrorType
  originalInput : List Char
deriving DecidableEq

/-- A registry is the ordered list of registered handlers, each carrying
its ordered list of command definitions. -/
abbrev Registry := List (List CommandDef)

def allCommandsOf (reg : Registry) : List (List Char) :=
  reg.flatMap (fun handler => handler.map (fun d => d.command))

def allExamplesOf (reg : Registry) : List (List Char) :=
  reg.flatMap (fun handler => handler.flatMap (fun d => d.examples))

/-- First-occurrence de-duplication: the JS `[...new Set(list)]`. -/
def dedupFirstAux (seen : List (List Char)) : List (List Char) → List (List Char)
  | [] => []
  | x :: xs => if x ∈ seen then dedupFirstAux seen xs else x :: dedupFirstAux (x :: seen) xs

def dedupFirst (l : List (List Char)) : List (List Char) := dedupFirstAux [] l

/-- The generic fallback tail of the error message. -/
def genericHelpTail : List Char :=
  jstr "\n\nTry using \"help\" to see available commands or \"help <category>\" for specific command groups."

/-- `CommandRegistry.generateEnhancedError`. -/
def generateEnhancedError (reg : Registry) (text : List Char) : EnhancedError :=
  let allCommands := allCommandsOf reg
  let allExamples := allExamplesOf reg
  let commandSuggestions := (findMatches text allCommands 3 (3/10)).map (fun m => m.item)
  let exampleSuggestions := (findMatches text allExamples 3 (2/10)).map (fun m => m.item)
  let suggestions := (dedupFirst (commandSuggestions ++ exampleSuggestions)).take 5
  let base := jstr "Could not understand the instruction: \"" ++ text ++ jstr "\""
  let message :=
    if 0 < suggestions.length then
      base ++ jstr "\n\nDid you mean one of these?\n" ++
        (List.intercalate (jstr "\n") (suggestions.map (fun s => jstr "• " ++ s)))
    else
      base ++ genericHelpTail
  { message := message,
    suggestions := suggestions,
    type := ErrorType.command_not_found,
    originalInput := text }

/-- `CommandRegistry.parseInstruction`: first handler with a parse wins,
otherwise the enhanced error is raised. -/
def parseInstruction (reg : Registry) (text : List Char) : Except EnhancedError ParseResult :=
  match reg.findSome? (fun handler => parseCommand handler text) with
  | some result => Except.ok result
  | none => Except.error (generateEnhancedError reg text)

/-- Stated from the spec's words (§4.2 step 2) for the refinement claim:
iterate catalogs in registration order, definitions in declaration order,
patterns in declaration order, and pick the first definition one of whose
patterns matches the normalized text. -/
def specFirstMatchingDef (reg : Registry) (lower : List Char) : Option CommandDef :=
  reg.findSome? (fun handler => handler.findSome? (fun d =>
    if d.patterns.any (fun p => (p lower).isSome) then some d else none))

/-!
## A model catalog

Modelled from the spec: the concrete command-definition catalogs that the
application registers at startup (the parser command files with their
regular expressions and example phrasings) are not part of the provided
source, which contains only the abstract `BaseCommandDefinition` and its
callers.  Following §3 and §4.2 of the specification, each definition
carries ordered patterns and example phrasings that its own patterns
recognize; patterns here are exact-phrase matchers.
-/

def exactPattern (phrase : String) : Pattern := fun text =>
  if text = jstr phrase then some [some (jstr phrase)] else none

def createSessionDef : CommandDef :=
  { command := jstr "create session",
    patterns := [exactPattern "create session", exactPattern "crear sesión"],
    description := jstr "Creates a new simulator session",
    requiredParameters := [],
    optionalParameters := [jstr "deviceName"],
    examples := [jstr "create session", jstr "crear sesión"],
    parameterExtractors := [] }

def listSimulatorsDef : CommandDef :=
  { command := jstr "list simulators",
    patterns := [exactPattern "list simulators", exactPattern "listar simuladores"],
    description := jstr "Lists available simulators",
    requiredParameters := [],
    optionalParameters := [],
    examples := [jstr "list simulators", jstr "listar simuladores"],
    parameterExtractors := [] }

def installAppDef : CommandDef :=
  { command := jstr "install app",
    patterns := [exactPattern "install app", exactPattern "instalar app"],
    description := jstr "Installs an application",
    requiredParameters := [jstr "appPath"],
    optionalParameters := [],
    examples := [jstr "install app", jstr "instalar app"],
    parameterExtractors := [] }

def tapDef : CommandDef :=
  { command := jstr "tap",
    patterns := [exactPattern "tap", exactPattern "tocar"],
    description := jstr "Taps the screen",
    requiredParameters := [jstr "x", jstr "y"],
    optionalParameters := [],
    examples := [jstr "tap", jstr "tocar"],
    parameterExtractors := [] }

def simulatorCatalog : List CommandDef := [createSessionDef, listSimulatorsDef]

def appCatalog : List CommandDef := [installAppDef, tapDef]

def modelRegistry : Registry := [simulatorCatalog, appCatalog]

/-!
## Lemmas about association-list primitives
-/

lemma assocGet_setKey_self (m : ParamMap) (k : List Char) (v : JSValue) :
    assocGet (setKey m k v) k = some v := by
  induction m with
  | nil => simp [setKey, assocGet]
  | cons hd tl ih =>
    obtain ⟨k', v'⟩ := hd
    by_cases h : k' = k
    · simp [setKey, h, assocGet]
    · simp [setKey, h, assocGet, ih]

lemma assocGet_setKey_ne (m : ParamMap) (k k' : List Char) (v : JSValue) (h : k' ≠ k) :
    assocGet (setKey m k v) k' = assocGet m k' := by
  have h' : k ≠ k' := Ne.symm h
  induction m with
  | nil => simp [setKey, assocGet, h']
  | cons hd tl ih =>
    obtain ⟨k₀, v₀⟩ := hd
    by_cases h₀ : k₀ = k
    · subst h₀
      simp [setKey, assocGet, h']
    · simp [setKey, h₀, assocGet, ih]

lemma assocGet_coerceNumKey_ne (m : ParamMap) (k k' : List Char) (h : k' ≠ k) :
    assocGet (coerceNumKey m k) k' = assocGet m k' := by
  unfold coerceNumKey
  cases hv : assocGet m k with
  | none => rfl
  | some v => cases v <;> simp [assocGet_setKey_ne _ _ _ _ h]

lemma assocGet_coerceNumKey_str (m : ParamMap) (k s : List Char)
    (h : assocGet m k = some (JSValue.str s)) :
    assocGet (coerceNumKey m k) k = some (JSValue.num (parseJsNumber s)) := by
  simp [coerceNumKey, h, jsNumberValue, assocGet_setKey_self]

lemma assocGet_of_mem_of_nodupKeys {β : Type} (m : List (List Char × β)) (k : List Char) (v : β)
    (hnd : (m.map Prod.fst).Nodup) (hmem : (k, v) ∈ m) : assocGet m k = some v := by
  induction m with
  | nil => cases hmem
  | cons hd tl ih =>
    obtain ⟨k', v'⟩ := hd
    rcases List.mem_cons.mp hmem with heq | htl
    · obtain ⟨hk, hv⟩ := Prod.mk.injEq .. ▸ heq
      simp [assocGet, hk.symm, hv]
    · have hk' : k' ≠ k := by
        intro hcontra
        have : k ∈ tl.map Prod.fst := List.mem_map.mpr ⟨(k, v), htl, rfl⟩
        exact (List.nodup_cons.mp hnd).1 (hcontra ▸ this)
      simp [assocGet, hk', ih (List.nodup_cons.mp hnd).2 htl]

/-- The keys of the bilingual table are pairwise distinct; consequently the
association list read agrees with the JS object property read. -/
lemma commandMappings_nodupKeys : (commandMappings.map Prod.fst).Nodup := by decide

/-- C7: for an empty or whitespace-only input, `findMatches` returns the
first `maxResults` candidates verbatim with score 1/2 and distance 0,
regardless of the `minScore` threshold. -/
theorem findMatches_blank_input (input : List Char) (candidates : List (List Char))
    (maxResults : Nat) (minScore : ℚ) (h : jsTrim input = []) :
    findMatches input candidates maxResults minScore =
      (candidates.take maxResults).map (fun item => ⟨item, 1/2, 0⟩) := by
  simp [findMatches, h]

theorem findMatches_blank_input_witness :
    findMatches (jstr "   ") [jstr "tap", jstr "swipe"] 1 (9/10) =
      [⟨jstr "tap", 1/2, 0⟩] :=
  (findMatches_blank_input (jstr "   ") [jstr "tap", jstr "swipe"] 1 (9/10)
    (by decide)).trans (by with_unfolding_all decide)

/-- C2: an input whose lowercased form is exactly a key of the bilingual
table resolves to that key's type, with the substring scan never
consulted; only when no exact key matches is the table scanned in
insertion order for the first entry whose key is a substring. -/
theorem mapToCommandType_exact_over_substring (cmd : List Char) :
    (∀ v, (jsToLower cmd, v) ∈ commandMappings → mapToCommandType cmd = Except.ok v) ∧
    (assocGet commandMappings (jsToLower cmd) = none →
      mapToCommandType cmd =
        match commandMappings.find? (fun e => jsIncludes (jsToLower cmd) e.1) with
        | some e => Except.ok e.2
        | none =>
          Except.error
            (jstr "Could not map command \"" ++ cmd ++ jstr "\" to a CommandType")) := by
  constructor
  · intro v hmem
    have h := assocGet_of_mem_of_nodupKeys commandMappings (jsToLower cmd) v
      commandMappings_nodupKeys hmem
    simp [mapToCommandType, h]
  · intro hnone
    simp [mapToCommandType, hnone]

theorem mapToCommandType_exact_over_substring_witness :
    mapToCommandType (jstr "Tap") = Except.ok CommandType.TAP :=
  (mapToCommandType_exact_over_substring (jstr "Tap")).1 CommandType.TAP (by decide)

/-- C8: an input matching no table key exactly nor as a substring makes
`mapToCommandType` fail hard with a bare message: the error value is the
message string alone, with no suggestion list and no enrichment. -/
theorem mapToCommandType_unmatched_hard_error (cmd : List Char)
    (hexact : assocGet commandMappings (jsToLower cmd) = none)
    (hsub : commandMappings.find? (fun e => jsIncludes (jsToLower cmd) e.1) = none) :
    mapToCommandType cmd =
      Except.error (jstr "Could not map command \"" ++ cmd ++ jstr "\" to a CommandType") := by
  simp [mapToCommandType, hexact, hsub]

theorem mapToCommandType_unmatched_hard_error_witness :
    mapToCommandType (jstr "xyzq") =
      Except.error (jstr "Could not map command \"" ++ jstr "xyzq" ++ jstr "\" to a CommandType") :=
  mapToCommandType_unmatched_hard_error (jstr "xyzq") (by decide) (by decide)

lemma assocGet_convert_create_ne (pp : ParamMap) (k : List Char) (h : k ≠ jstr "autoboot") :
    assocGet (convertParameters CommandType.CREATE_SIMULATOR_SESSION pp) k = assocGet pp k := by
  simp only [convertParameters]
  cases hv : assocGet pp (jstr "autoboot") with
  | none => simp [hv]
  | some v => cases v <;> simp [hv, assocGet_setKey_ne _ _ _ _ h]

/-- C5: type-specific parameter coercion.  TAP coerces `x`/`y` and SWIPE
coerces the four coordinates and `duration` from strings to numbers when
present; CREATE_SIMULATOR_SESSION turns the literal strings "true"/"false"
into the booleans; every other key, and every other command type, passes
through unchanged; and the two concrete examples of the specification. -/
theorem convertParameters_coercion (pp : ParamMap) :
    (∀ s, assocGet pp (jstr "x") = some (JSValue.str s) →
      assocGet (convertParameters CommandType.TAP pp) (jstr "x")
        = some (JSValue.num (parseJsNumber s))) ∧
    (∀ s, assocGet pp (jstr "y") = some (JSValue.str s) →
      assocGet (convertParameters CommandType.TAP pp) (jstr "y")
        = some (JSValue.num (parseJsNumber s))) ∧
    (∀ k, k ≠ jstr "x" → k ≠ jstr "y" →
      assocGet (convertParameters CommandType.TAP pp) k = assocGet pp k) ∧
    (∀ s, assocGet pp (jstr "startX") = some (JSValue.str s) →
      assocGet (convertParameters CommandType.SWIPE pp) (jstr "startX")
        = some (JSValue.num (parseJsNumber s))) ∧
    (∀ s, assocGet pp (jstr "startY") = some (JSValue.str s) →
      assocGet (convertParameters CommandType.SWIPE pp) (jstr "startY")
        = some (JSValue.num (parseJsNumber s))) ∧
    (∀ s, assocGet pp (jstr "endX") = some (JSValue.str s) →
      assocGet (convertParameters CommandType.SWIPE pp) (jstr "endX")
        = some (JSValue.num (parseJsNumber s))) ∧
    (∀ s, assocGet pp (jstr "endY") = some (JSValue.str s) →
      assocGet (convertParameters CommandType.SWIPE pp) (jstr "endY")
        = some (JSValue.num (parseJsNumber s))) ∧
    (∀ s, assocGet pp (jstr "duration") = some (JSValue.str s) →
      assocGet (convertParameters CommandType.SWIPE pp) (jstr "duration")
        = some (JSValue.num (parseJsNumber s))) ∧
    (∀ k, k ≠ jstr "startX" → k ≠ jstr "startY" → k ≠ jstr "endX" → k ≠ jstr "endY" →
      k ≠ jstr "duration" →
      assocGet (convertParameters CommandType.SWIPE pp) k = assocGet pp k) ∧
    (assocGet pp (jstr "autoboot") = some (JSValue.str (jstr "true")) →
      assocGet (convertParameters CommandType.CREATE_SIMULATOR_SESSION pp) (jstr "autoboot")
        = some (JSValue.bool true)) ∧
    (assocGet pp (jstr "autoboot") = some (JSValue.str (jstr "false")) →
      assocGet (convertParameters CommandType.CREATE_SIMULATOR_SESSION pp) (jstr "autoboot")
        = some (JSValue.bool false)) ∧
    (∀ k, k ≠ jstr "autoboot" →
      assocGet (convertParameters CommandType.CREATE_SIMULATOR_SESSION pp) k = assocGet pp k) ∧
    (∀ t, t ≠ CommandType.TAP → t ≠ CommandType.SWIPE →
      t ≠ CommandType.CREATE_SIMULATOR_SESSION → convertParameters t pp = pp) ∧
    convertParameters CommandType.TAP
        [(jstr "x", JSValue.str (jstr "10")), (jstr "y", JSValue.str (jstr "20"))]
      = [(jstr "x", JSValue.num (JSNum.val 10)), (jstr "y", JSValue.num (JSNum.val 20))] ∧
    convertParameters CommandType.CREATE_SIMULATOR_SESSION
        [(jstr "autoboot", JSValue.str (jstr "false"))]
      = [(jstr "autoboot", JSValue.bool false)] := by
  refine ⟨?_, ?_, ?_, ?_, ?_, ?_, ?_, ?_, ?_, ?_, ?_, ?_, ?_, ?_, ?_⟩
  · intro s hs
    show assocGet (coerceNumKey (coerceNumKey pp (jstr "x")) (jstr "y")) (jstr "x") = _
    rw [assocGet_coerceNumKey_ne _ _ _ (by decide),
      assocGet_coerceNumKey_str _ _ _ hs]
  · intro s hs
    show assocGet (coerceNumKey (coerceNumKey pp (jstr "x")) (jstr "y")) (jstr "y") = _
    rw [assocGet_coerceNumKey_str _ _ _
      (by rw [assocGet_coerceNumKey_ne _ _ _ (by decide)]; exact hs)]
  · intro k hx hy
    show assocGet (coerceNumKey (coerceNumKey pp (jstr "x")) (jstr "y")) k = _
    rw [assocGet_coerceNumKey_ne _ _ _ hy, assocGet_coerceNumKey_ne _ _ _ hx]
  · intro s hs
    show assocGet (coerceNumKey (coerceNumKey (coerceNumKey (coerceNumKey (coerceNumKey pp
      (jstr "startX")) (jstr "startY")) (jstr "endX")) (jstr "endY")) (jstr "duration"))
      (jstr "startX") = _
    rw [assocGet_coerceNumKey_ne _ _ _ (by decide), assocGet_coerceNumKey_ne _ _ _ (by decide),
      assocGet_coerceNumKey_ne _ _ _ (by decide), assocGet_coerceNumKey_ne _ _ _ (by decide),
      assocGet_coerceNumKey_str _ _ _ hs]
  · intro s hs
    show assocGet (coerceNumKey (coerceNumKey (coerceNumKey (coerceNumKey (coerceNumKey pp
      (jstr "startX")) (jstr "startY")) (jstr "endX")) (jstr "endY")) (jstr "duration"))
      (jstr "startY") = _
    rw [assocGet_coerceNumKey_ne _ _ _ (by decide), assocGet_coerceNumKey_ne _ _ _ (by decide),
      assocGet_coerceNumKey_ne _ _ _ (by decide),
      assocGet_coerceNumKey_str _ _ _
        (by rw [assocGet_coerceNumKey_ne _ _ _ (by decide)]; exact hs)]
  · intro s hs
    show assocGet (coerceNumKey (coerceNumKey (coerceNumKey (coerceNumKey (coerceNumKey pp
      (jstr "startX")) (jstr "startY")) (jstr "endX")) (jstr "endY")) (jstr "duration"))
      (jstr "endX") = _
    rw [assocGet_coerceNumKey_ne _ _ _ (by decide), assocGet_coerceNumKey_ne _ _ _ (by decide),
      assocGet_coerceNumKey_str _ _ _
        (by rw [assocGet_coerceNumKey_ne _ _ _ (by decide),
          assocGet_coerceNumKey_ne _ _ _ (by decide)]; exact hs)]
  · intro s hs
    show assocGet (coerceNumKey (coerceNumKey (coerceNumKey (coerceNumKey (coerceNumKey pp
      (jstr "startX")) (jstr "startY")) (jstr "endX")) (jstr "endY")) (jstr "duration"))
      (jstr "endY") = _
    rw [assocGet_coerceNumKey_ne _ _ _ (by decide),
      assocGet_coerceNumKey_str _ _ _
        (by rw [assocGet_coerceNumKey_ne _ _ _ (by decide),
          assocGet_coerceNumKey_ne _ _ _ (by decide),
          assocGet_coerceNumKey_ne _ _ _ (by decide)]; exact hs)]
  · intro s hs
    show assocGet (coerceNumKey (coerceNumKey (coerceNumKey (coerceNumKey (coerceNumKey pp
      (jstr "startX")) (jstr "startY")) (jstr "endX")) (jstr "endY")) (jstr "duration"))
      (jstr "duration") = _
    rw [assocGet_coerceNumKey_str _ _ _
      (by rw [assocGet_coerceNumKey_ne _ _ _ (by decide),
        assocGet_coerceNumKey_ne _ _ _ (by decide),
        assocGet_coerceNumKey_ne _ _ _ (by decide),
        assocGet_coerceNumKey_ne _ _ _ (by decide)]; exact hs)]
  · intro k h1 h2 h3 h4 h5
    show assocGet (coerceNumKey (coerceNumKey (coerceNumKey (coerceNumKey (coerceNumKey pp
      (jstr "startX")) (jstr "startY")) (jstr "endX")) (jstr "endY")) (jstr "duration")) k = _
    rw [assocGet_coerceNumKey_ne _ _ _ h5, assocGet_coerceNumKey_ne _ _ _ h4,
      assocGet_coerceNumKey_ne _ _ _ h3, assocGet_coerceNumKey_ne _ _ _ h2,
      assocGet_coerceNumKey_ne _ _ _ h1]
  · intro hs
    have hb : (jsToLower (jstr "true") == jstr "true") = true := by decide
    simp [convertParameters, hs, assocGet_setKey_self, hb]
  · intro hs
    have hb : (jsToLower (jstr "false") == jstr "true") = false := by decide
    simp [convertParameters, hs, assocGet_setKey_self, hb]
  · exact fun k hk => assocGet_convert_create_ne pp k hk
  · intro t h1 h2 h3
    cases t <;> first
      | rfl
      | exact absurd rfl h1
      | exact absurd rfl h2
      | exact absurd rfl h3
  · with_unfolding_all decide
  · decide

theorem convertParameters_coercion_witness :
    assocGet (convertParameters CommandType.TAP [(jstr "x", JSValue.str (jstr "10"))]) (jstr "x")
      = some (JSValue.num (parseJsNumber (jstr "10"))) :=
  (convertParameters_coercion [(jstr "x", JSValue.str (jstr "10"))]).1 (jstr "10") (by decide)

/-!
## Heap-level lemmas for the no-mutation claim
-/

lemma getD_append_self (l : List ParamMap) (m : ParamMap) :
    (l ++ [m]).getD l.length [] = m := by
  induction l with
  | nil => rfl
  | cons x xs ih => simp [ih]

lemma set_append_self (l : List ParamMap) (m m' : ParamMap) :
    (l ++ [m]).set l.length m' = l ++ [m'] := by
  induction l with
  | nil => rfl
  | cons x xs ih => simp [ih]

lemma take_append_self (l : List ParamMap) (m : ParamMap) :
    (l ++ [m]).take l.length = l := by
  induction l with
  | nil => rfl
  | cons x xs ih => simp [ih]

lemma coerceNumAt_fresh (l : List ParamMap) (m : ParamMap) (k : List Char) :
    coerceNumAt ⟨l ++ [m]⟩ l.length k = ⟨l ++ [coerceNumKey m k]⟩ := by
  simp only [coerceNumAt, heapGet, heapSet, coerceNumKey, getD_append_self]
  cases hv : assocGet m k with
  | none => rfl
  | some v => cases v <;> simp [set_append_self]

lemma convertParametersHeap_eq (t : CommandType) (l : List ParamMap) (r : Nat) :
    convertParametersHeap t ⟨l⟩ r =
      (⟨l ++ [convertParameters t (List.getD l r [])]⟩, l.length) := by
  cases t
  case TAP => simp only [convertParametersHeap, coerceNumAt_fresh]; rfl
  case SWIPE => simp only [convertParametersHeap, coerceNumAt_fresh]; rfl
  case CREATE_SIMULATOR_SESSION =>
    simp only [convertParametersHeap, heapGet, heapSet, getD_append_self]
    cases hv : assocGet (List.getD l r []) (jstr "autoboot") with
    | none => simp only [convertParameters, hv]
    | some v =>
      cases v <;> simp only [convertParameters, hv, set_append_self]
  all_goals rfl

/-- C10: `convertParameters` clones the caller's parameter map (the object
spread) and writes only through the fresh reference: the returned
reference is the newly allocated one, every pre-existing heap object — in
particular the caller's map — is unchanged, and the fresh object holds the
coerced copy. -/
theorem convertParametersHeap_no_mutation (t : CommandType) (h : Heap) (r : Nat) :
    (convertParametersHeap t h r).2 = h.objs.length ∧
    (convertParametersHeap t h r).1.objs.take h.objs.length = h.objs ∧
    heapGet (convertParametersHeap t h r).1 (convertParametersHeap t h r).2 =
      convertParameters t (heapGet h r) := by
  obtain ⟨l⟩ := h
  rw [convertParametersHeap_eq]
  exact ⟨rfl, take_append_self l _, by simp only [heapGet, getD_append_self]⟩

/-!
## Bounds on the Levenshtein matrix

Every cell `matrix[i][j]` is at most `max i j`; the bound follows the rows
of the dynamic program.
-/

lemma levRowAux_bound (c2 : Char) :
    ∀ (cs : List Char) (i j diag left : Nat) (ups : List Nat),
      diag ≤ max i j → left ≤ max (i + 1) j →
      (∀ k v, ups[k]? = some v → v ≤ max i (j + 1 + k)) →
      ∀ k v, (levRowAux c2 cs diag left ups)[k]? = some v → v ≤ max (i + 1) (j + 1 + k) := by
  intro cs
  induction cs with
  | nil =>
    intro i j diag left ups _ _ _ k v hk
    simp [levRowAux] at hk
  | cons c1 cs ih =>
    intro i j diag left ups hdiag hleft hups k v hk
    cases ups with
    | nil => simp [levRowAux] at hk
    | cons up ups' =>
      simp only [levRowAux] at hk
      have hv0 : (if c2 = c1 then diag else 1 + min diag (min left up)) ≤ max (i + 1) (j + 1) := by
        split <;> omega
      cases k with
      | zero =>
        simp only [List.getElem?_cons_zero, Option.some.injEq] at hk
        omega
      | succ k =>
        simp only [List.getElem?_cons_succ] at hk
        have hup : up ≤ max i (j + 1) := by
          have := hups 0 up (by simp)
          omega
        have hups' : ∀ k v, ups'[k]? = some v → v ≤ max i (j + 1 + 1 + k) := by
          intro k v hk'
          have := hups (k + 1) v (by simpa using hk')
          omega
        have := ih i (j + 1) up _ ups' hup hv0 hups' k v hk
        omega

lemma levRows_bound (s1 : List Char) :
    ∀ (cs2 : List Char) (i : Nat) (prev : List Nat),
      (∀ k v, prev[k]? = some v → v ≤ max i k) →
      ∀ k v, (levRows s1 cs2 i prev)[k]? = some v → v ≤ max (i + cs2.length) k := by
  intro cs2
  induction cs2 with
  | nil =>
    intro i prev hprev k v hk
    have := hprev k v (by simpa [levRows] using hk)
    omega
  | cons c2 cs2 ih =>
    intro i prev hprev k v hk
    simp only [levRows] at hk
    have hrow : ∀ k v,
        ((i + 1) :: levRowAux c2 s1 (prev.headD 0) (i + 1) prev.tail)[k]? = some v →
        v ≤ max (i + 1) k := by
      intro k v hk'
      cases k with
      | zero =>
        simp only [List.getElem?_cons_zero, Option.some.injEq] at hk'
        omega
      | succ k =>
        simp only [List.getElem?_cons_succ] at hk'
        have hdiag : prev.headD 0 ≤ max i 0 := by
          cases prev with
          | nil => simp
          | cons p ps =>
            have := hprev 0 p (by simp)
            simpa using this
        have hleft : i + 1 ≤ max (i + 1) 0 := by omega
        have hups : ∀ k v, prev.tail[k]? = some v → v ≤ max i (0 + 1 + k) := by
          intro k v hk''
          cases prev with
          | nil => simp at hk''
          | cons p ps =>
            have := hprev (k + 1) v (by simpa using hk'')
            omega
        have := levRowAux_bound c2 s1 i 0 (prev.headD 0) (i + 1) prev.tail hdiag hleft hups k v hk'
        omega
    have := ih (i + 1) _ hrow k v hk
    simp only [List.length_cons]
    omega

lemma levenshteinDistance_le (s1 s2 : List Char) :
    levenshteinDistance s1 s2 ≤ max s1.length s2.length := by
  have hrange : ∀ k v, (List.range (s1.length + 1))[k]? = some v → v ≤ max 0 k := by
    intro k v hk
    by_cases hlt : k < s1.length + 1
    · rw [List.getElem?_range hlt] at hk
      simp only [Option.some.injEq] at hk
      omega
    · rw [List.getElem?_eq_none (by simpa using Nat.le_of_not_lt hlt)] at hk
      cases hk
  have hfin := levRows_bound s1 s2 0 (List.range (s1.length + 1)) hrange
  unfold levenshteinDistance
  cases hlast : (levRows s1 s2 0 (List.range (s1.length + 1)))[s1.length]? with
  | none => simp [List.getD_eq_getElem?_getD, hlast]
  | some v =>
    have hv := hfin s1.length v hlast
    simp only [List.getD_eq_getElem?_getD, hlast, Option.getD_some]
    omega

lemma jsToLower_length (l : List Char) : (jsToLower l).length = l.length := by
  simp [jsToLower]

lemma calculateScore_nonneg_le_one (input target : List Char) :
    0 ≤ calculateScore input target ∧ calculateScore input target ≤ 1 := by
  simp only [calculateScore]
  by_cases hm : max input.length target.length = 0
  · rw [if_pos hm]
    norm_num
  · rw [if_neg hm]
    set D : ℕ := levenshteinDistance (jsToLower input) (jsToLower target) with hD
    set M : ℕ := max input.length target.length with hM
    have hd : D ≤ M := by
      have := levenshteinDistance_le (jsToLower input) (jsToLower target)
      simpa [hD, hM, jsToLower_length] using this
    have hmpos : (0 : ℚ) < (M : ℚ) := by
      exact_mod_cast Nat.pos_of_ne_zero hm
    have hle : (D : ℚ) / (M : ℚ) ≤ 1 := by
      rw [div_le_one hmpos]
      exact_mod_cast hd
    have h0 : (0 : ℚ) ≤ (D : ℚ) / (M : ℚ) :=
      div_nonneg (Nat.cast_nonneg _) (le_of_lt hmpos)
    constructor <;> linarith

lemma boostedScore_nonneg_le_one (input target : List Char) :
    0 ≤ boostedScore input target ∧ boostedScore input target ≤ 1 := by
  obtain ⟨h0, h1⟩ := calculateScore_nonneg_le_one input target
  simp only [boostedScore]
  split
  · exact ⟨le_min (by norm_num) (by linarith), min_le_left _ _⟩
  · split
    · exact ⟨le_min (by norm_num) (by linarith), min_le_left _ _⟩
    · exact ⟨h0, h1⟩

/-- C6: every boosted score lies in `[0,1]`; the identical pair
("tap","tap") scores 1 before and after boosting; the empty/empty pair
scores 1; and the mutually exclusive boosts (prefix checked first) never
push a score above 1. -/
theorem fuzzy_score_bounds :
    (∀ input target : List Char,
      0 ≤ boostedScore input target ∧ boostedScore input target ≤ 1) ∧
    calculateScore (jstr "tap") (jstr "tap") = 1 ∧
    boostedScore (jstr "tap") (jstr "tap") = 1 ∧
    calculateScore [] [] = 1 ∧
    boostedScore [] [] = 1 :=
  ⟨boostedScore_nonneg_le_one, by with_unfolding_all decide, by with_unfolding_all decide,
    by with_unfolding_all decide, by with_unfolding_all decide⟩

/-!
## Ordering of the sorted result list

The sort comparator is total but not transitive (scores can chain through
several sub-0.01 steps), so only the ordering of consecutive entries is
guaranteed; the stable sort produces a list every adjacent pair of which
satisfies the comparator.
-/

lemma fuzzyLe_total (a b : FuzzyMatchResult) : fuzzyLe a b = true ∨ fuzzyLe b a = true := by
  unfold fuzzyLe
  by_cases h : |a.score - b.score| < 1/100
  · have h' : |b.score - a.score| < 1/100 := by rwa [abs_sub_comm]
    rw [if_pos h, if_pos h']
    simp only [decide_eq_true_eq]
    exact Nat.le_total a.distance b.distance
  · have h' : ¬ |b.score - a.score| < 1/100 := by rwa [abs_sub_comm]
    rw [if_neg h, if_neg h']
    simp only [decide_eq_true_eq]
    exact le_total b.score a.score

lemma chain'_insertSorted (x : FuzzyMatchResult) (l : List FuzzyMatchResult)
    (hl : List.Chain' (fun a b => fuzzyLe a b = true) l) :
    List.Chain' (fun a b => fuzzyLe a b = true) (insertSorted fuzzyLe x l) := by
  induction l with
  | nil => exact List.chain'_singleton x
  | cons y ys ih =>
    obtain ⟨hhead, hys⟩ := List.chain'_cons'.mp hl
    simp only [insertSorted]
    by_cases hxy : fuzzyLe x y = true
    · rw [if_pos hxy]
      exact List.chain'_cons.mpr ⟨hxy, hl⟩
    · rw [if_neg hxy]
      have hyx : fuzzyLe y x = true := (fuzzyLe_total x y).resolve_left hxy
      refine List.chain'_cons'.mpr ⟨?_, ih hys⟩
      intro z hz
      cases ys with
      | nil =>
        simp only [insertSorted, List.head?_cons, Option.mem_def, Option.some.injEq] at hz
        exact hz ▸ hyx
      | cons w ws =>
        simp only [insertSorted] at hz
        by_cases hxw : fuzzyLe x w = true
        · rw [if_pos hxw] at hz
          simp only [List.head?_cons, Option.mem_def, Option.some.injEq] at hz
          exact hz ▸ hyx
        · rw [if_neg hxw] at hz
          simp only [List.head?_cons, Option.mem_def, Option.some.injEq] at hz
          exact hz ▸ hhead w (by simp)

lemma chain'_sortResults (l : List FuzzyMatchResult) :
    List.Chain' (fun a b => fuzzyLe a b = true) (sortResults fuzzyLe l) := by
  induction l with
  | nil => exact List.chain'_nil
  | cons x xs ih => exact chain'_insertSorted x _ ih

lemma chain'_take {α : Type} (R : α → α → Prop) :
    ∀ (l : List α) (n : Nat), List.Chain' R l → List.Chain' R (l.take n) := by
  intro l
  induction l with
  | nil => intro n _; simp
  | cons x xs ih =>
    intro n hl
    cases n with
    | zero => simp
    | succ n =>
      obtain ⟨hhead, hxs⟩ := List.chain'_cons'.mp hl
      rw [List.take_succ_cons]
      refine List.chain'_cons'.mpr ⟨?_, ih n hxs⟩
      intro z hz
      cases xs with
      | nil => simp at hz
      | cons w ws =>
        cases n with
        | zero => simp at hz
        | succ n =>
          simp only [List.take_succ_cons, List.head?_cons, Option.mem_def,
            Option.some.injEq] at hz
          exact hz ▸ hhead w (by simp)

/-- C1 (amended): for non-blank input, `findMatches` returns at most
`maxResults` entries, and every two CONSECUTIVE entries are ordered by the
sort comparator: when their scores differ by less than 0.01 they appear in
ascending order of edit distance, otherwise in strictly decreasing score
order.  The pairwise version of the claim fails (see the counterexample):
the comparator is not transitive, so neither global ordering holds. -/
theorem findMatches_cap_and_adjacent_order (input : List Char) (candidates : List (List Char))
    (maxResults : Nat) (minScore : ℚ) (h : jsTrim input ≠ []) :
    (findMatches input candidates maxResults minScore).length ≤ maxResults ∧
    List.Chain'
      (fun a b => if |a.score - b.score| < 1/100 then a.distance ≤ b.distance
        else b.score < a.score)
      (findMatches input candidates maxResults minScore) := by
  rw [findMatches, if_neg h]
  constructor
  · exact List.length_take_le _ _
  · refine List.Chain'.imp ?_ (chain'_take _ _ _ (chain'_sortResults _))
    intro a b hab
    unfold fuzzyLe at hab
    by_cases hw : |a.score - b.score| < 1/100
    · rw [if_pos hw] at hab ⊢
      exact of_decide_eq_true hab
    · rw [if_neg hw] at hab ⊢
      have hba : b.score ≤ a.score := of_decide_eq_true hab
      rcases lt_or_eq_of_le hba with hlt | heq
      · exact hlt
      · exfalso
        apply hw
        rw [heq, sub_self, abs_zero]
        norm_num

theorem findMatches_cap_and_adjacent_order_witness :
    jsTrim (jstr "tap") ≠ [] ∧
    ((findMatches (jstr "tap") [jstr "tap", jstr "tocar"] 5 (3/10)).length ≤ 5 ∧
      List.Chain'
        (fun a b => if |a.score - b.score| < 1/100 then a.distance ≤ b.distance
          else b.score < a.score)
        (findMatches (jstr "tap") [jstr "tap", jstr "tocar"] 5 (3/10))) :=
  ⟨by decide, findMatches_cap_and_adjacent_order (jstr "tap") [jstr "tap", jstr "tocar"] 5
    (3/10) (by decide)⟩

/-- C1, as stated, is false: on input "abc" with candidates "abd"
(score 2/3, distance 1) and "abcdefgh" (prefix-boosted score 27/40,
distance 5) the two scores differ by 1/120 < 0.01, so the returned list
cannot both be non-increasing in score and list sub-0.01 ties in
ascending distance order; the code returns the ascending-distance order
[abd, abcdefgh], whose scores increase. -/
theorem findMatches_pairwise_order_counterexample :
    ¬ ((findMatches (jstr "abc") [jstr "abd", jstr "abcdefgh"] 5 (3/10)).length ≤ 5 ∧
      List.Pairwise (fun a b => b.score ≤ a.score)
        (findMatches (jstr "abc") [jstr "abd", jstr "abcdefgh"] 5 (3/10)) ∧
      List.Pairwise (fun a b => |a.score - b.score| < 1/100 → a.distance ≤ b.distance)
        (findMatches (jstr "abc") [jstr "abd", jstr "abcdefgh"] 5 (3/10))) := by
  with_unfolding_all decide

/-!
## First-match refinement of the parser
-/

/-- The per-pattern step of `parseCommand`, named so the refinement lemmas
can speak about it. -/
def patStep (d : CommandDef) (lower orig text : List Char) (p : Pattern) :
    Option ParseResult :=
  match p lower with
  | some m =>
    some { command := d.command, parameters := buildParams d ((p orig).getD m),
           confidence := 9/10, originalText := text }
  | none => none

lemma parseCommand_eq_patStep (defs : List CommandDef) (text : List Char) :
    parseCommand defs text =
      defs.findSome? (fun d =>
        d.patterns.findSome? (patStep d (jsToLower (jsTrim text)) (jsTrim text) text)) := rfl

lemma patFindSome_ok (d : CommandDef) (lower orig text : List Char) :
    ∀ (ps : List Pattern) (r : ParseResult),
      ps.findSome? (patStep d lower orig text) = some r →
      r.command = d.command ∧ r.confidence = 9/10 ∧ r.originalText = text ∧
        ps.any (fun p => (p lower).isSome) = true := by
  intro ps
  induction ps with
  | nil => intro r h; simp at h
  | cons p ps ih =>
    intro r h
    rw [List.findSome?_cons] at h
    cases hp : p lower with
    | some m =>
      rw [patStep, hp] at h
      simp only [Option.some.injEq] at h
      subst h
      simp [hp]
    | none =>
      rw [patStep, hp] at h
      obtain ⟨h1, h2, h3, h4⟩ := ih r h
      exact ⟨h1, h2, h3, by simp [hp, h4]⟩

lemma patFindSome_none (d : CommandDef) (lower orig text : List Char) :
    ∀ (ps : List Pattern),
      ps.findSome? (patStep d lower orig text) = none ↔
      ps.any (fun p => (p lower).isSome) = false := by
  intro ps
  induction ps with
  | nil => simp
  | cons p ps ih =>
    rw [List.findSome?_cons]
    cases hp : p lower with
    | some m => simp [patStep, hp]
    | none => simp [patStep, hp, ih]

lemma defsFindSome_ok (lower orig text : List Char) :
    ∀ (defs : List CommandDef) (r : ParseResult),
      defs.findSome? (fun d => d.patterns.findSome? (patStep d lower orig text)) = some r →
      r.confidence = 9/10 ∧ r.originalText = text ∧
      ∃ d, (defs.findSome? (fun d =>
          if d.patterns.any (fun p => (p lower).isSome) then some d else none)) = some d ∧
        r.command = d.command := by
  intro defs
  induction defs with
  | nil => intro r h; simp at h
  | cons d ds ih =>
    intro r h
    rw [List.findSome?_cons] at h
    cases hd : d.patterns.findSome? (patStep d lower orig text) with
    | some r0 =>
      rw [hd] at h
      simp only [Option.some.injEq] at h
      subst h
      obtain ⟨h1, h2, h3, h4⟩ := patFindSome_ok d lower orig text d.patterns r0 hd
      refine ⟨h2, h3, d, ?_, h1⟩
      simp only [List.findSome?_cons]
      rw [if_pos h4]
    | none =>
      rw [hd] at h
      obtain ⟨h1, h2, d', hd', hc⟩ := ih r h
      have hany : d.patterns.any (fun p => (p lower).isSome) = false :=
        (patFindSome_none d lower orig text d.patterns).mp hd
      refine ⟨h1, h2, d', ?_, hc⟩
      simp only [List.findSome?_cons]
      rw [if_neg (by simp [hany])]
      exact hd'

lemma defsFindSome_none (lower orig text : List Char) :
    ∀ (defs : List CommandDef),
      defs.findSome? (fun d => d.patterns.findSome? (patStep d lower orig text)) = none ↔
      defs.findSome? (fun d =>
        if d.patterns.any (fun p => (p lower).isSome) then some d else none) = none := by
  intro defs
  induction defs with
  | nil => simp
  | cons d ds ih =>
    rw [List.findSome?_cons, List.findSome?_cons]
    cases hd : d.patterns.findSome? (patStep d lower orig text) with
    | some r0 =>
      have hany := (patFindSome_ok d lower orig text d.patterns r0 hd).2.2.2
      simp [hany]
    | none =>
      have hany := (patFindSome_none d lower orig text d.patterns).mp hd
      simp [hany, ih]

lemma parseCommand_ok (defs : List CommandDef) (text : List Char) (r : ParseResult)
    (h : parseCommand defs text = some r) :
    r.confidence = 9/10 ∧ r.originalText = text ∧
    ∃ d, (defs.findSome? (fun d =>
        if d.patterns.any (fun p => (p (jsToLower (jsTrim text))).isSome) then some d
        else none)) = some d ∧ r.command = d.command := by
  rw [parseCommand_eq_patStep] at h
  exact defsFindSome_ok (jsToLower (jsTrim text)) (jsTrim text) text defs r h

lemma parseCommand_none (defs : List CommandDef) (text : List Char) :
    parseCommand defs text = none ↔
    defs.findSome? (fun d =>
      if d.patterns.any (fun p => (p (jsToLower (jsTrim text))).isSome) then some d
      else none) = none := by
  rw [parseCommand_eq_patStep]
  exact defsFindSome_none (jsToLower (jsTrim text)) (jsTrim text) text defs

lemma regFindSome_ok (reg : Registry) (text : List Char) :
    ∀ (r : ParseResult), reg.findSome? (fun handler => parseCommand handler text) = some r →
      r.confidence = 9/10 ∧ r.originalText = text ∧
      ∃ d, specFirstMatchingDef reg (jsToLower (jsTrim text)) = some d ∧
        r.command = d.command := by
  induction reg with
  | nil => intro r h; simp at h
  | cons handler hs ih =>
    intro r h
    rw [List.findSome?_cons] at h
    cases hp : parseCommand handler text with
    | some r0 =>
      rw [hp] at h
      simp only [Option.some.injEq] at h
      subst h
      obtain ⟨h1, h2, d, hd, hc⟩ := parseCommand_ok handler text r0 hp
      refine ⟨h1, h2, d, ?_, hc⟩
      simp only [specFirstMatchingDef, List.findSome?_cons, hd]
    | none =>
      rw [hp] at h
      obtain ⟨h1, h2, d, hd, hc⟩ := ih r h
      have hnone := (parseCommand_none handler text).mp hp
      refine ⟨h1, h2, d, ?_, hc⟩
      simp only [specFirstMatchingDef, List.findSome?_cons, hnone]
      simpa [specFirstMatchingDef] using hd

lemma regFindSome_none (reg : Registry) (text : List Char) :
    reg.findSome? (fun handler => parseCommand handler text) = none ↔
    specFirstMatchingDef reg (jsToLower (jsTrim text)) = none := by
  induction reg with
  | nil => simp [specFirstMatchingDef]
  | cons handler hs ih =>
    simp only [specFirstMatchingDef, List.findSome?_cons]
    cases hp : parseCommand handler text with
    | some r0 =>
      constructor
      · intro hcontra; cases hcontra
      · intro hcontra
        cases hq : handler.findSome? (fun d =>
            if d.patterns.any (fun p => (p (jsToLower (jsTrim text))).isSome) then some d
            else none) with
        | some d => rw [hq] at hcontra; cases hcontra
        | none =>
          rw [← parseCommand_none handler text] at hq
          rw [hq] at hp
          cases hp
    | none =>
      have hnone := (parseCommand_none handler text).mp hp
      rw [hnone]
      simpa [specFirstMatchingDef] using ih

/-- C3: parsing iterates catalogs in registration order, definitions in
declaration order and patterns in declaration order, returning on the
first match: a successful parse carries confidence exactly 9/10, the raw
input as `originalText`, and the command of the first definition (in that
iteration order) one of whose patterns matches the trimmed lowercased
text; and when no definition matches, parsing fails with the enhanced
error. -/
theorem parseInstruction_first_match (reg : Registry) (text : List Char) :
    (∀ r, parseInstruction reg text = Except.ok r →
      r.confidence = 9/10 ∧ r.originalText = text ∧
      ∃ d, specFirstMatchingDef reg (jsToLower (jsTrim text)) = some d ∧
        r.command = d.command) ∧
    (specFirstMatchingDef reg (jsToLower (jsTrim text)) = none →
      parseInstruction reg text = Except.error (generateEnhancedError reg text)) := by
  constructor
  · intro r h
    cases hf : reg.findSome? (fun handler => parseCommand handler text) with
    | some r0 =>
      rw [parseInstruction, hf] at h
      simp only [Except.ok.injEq] at h
      subst h
      exact regFindSome_ok reg text r0 hf
    | none => rw [parseInstruction, hf] at h; cases h
  · intro hnone
    have hf := (regFindSome_none reg text).mpr hnone
    rw [parseInstruction, hf]

theorem parseInstruction_first_match_witness :
    parseInstruction modelRegistry (jstr "tap") =
        Except.ok { command := jstr "tap", parameters := [], confidence := 9/10,
                    originalText := jstr "tap" } ∧
    ((9 : ℚ)/10 = 9/10 ∧ jstr "tap" = jstr "tap" ∧
      ∃ d, specFirstMatchingDef modelRegistry (jsToLower (jsTrim (jstr "tap"))) = some d ∧
        jstr "tap" = d.command) :=
  have heq : parseInstruction modelRegistry (jstr "tap") =
      Except.ok { command := jstr "tap", parameters := [], confidence := 9/10,
                  originalText := jstr "tap" } := by
    with_unfolding_all decide
  ⟨heq, (parseInstruction_first_match modelRegistry (jstr "tap")).1 _ heq⟩

/-!
## Registry error enrichment and the round-trip property
-/

/-- C4: when no handler parses the input, `parseInstruction` raises a
`command_not_found` error carrying the original input and suggestions
equal to the de-duplicated union (command matches first, capped at 5) of
the two fuzzy runs — over all command names (max 3, threshold 0.3) and
over all examples (max 3, threshold 0.2); when both runs come back empty
the suggestion list is empty and the message is the generic pointer
toward help. -/
theorem parseInstruction_enhanced_error (reg : Registry) (text : List Char)
    (hfail : reg.findSome? (fun handler => parseCommand handler text) = none) :
    ∃ e, parseInstruction reg text = Except.error e ∧
      e.suggestions = (dedupFirst
        ((findMatches text (allCommandsOf reg) 3 (3/10)).map (fun m => m.item) ++
         (findMatches text (allExamplesOf reg) 3 (2/10)).map (fun m => m.item))).take 5 ∧
      e.type = ErrorType.command_not_found ∧
      e.originalInput = text ∧
      (findMatches text (allCommandsOf reg) 3 (3/10) = [] →
        findMatches text (allExamplesOf reg) 3 (2/10) = [] →
        e.suggestions = [] ∧
        e.message = jstr "Could not understand the instruction: \"" ++ text ++ jstr "\"" ++
          genericHelpTail) := by
  refine ⟨generateEnhancedError reg text, by rw [parseInstruction, hfail], rfl, rfl, rfl, ?_⟩
  intro h1 h2
  constructor
  · simp [generateEnhancedError, h1, h2, dedupFirst, dedupFirstAux]
  · simp [generateEnhancedError, h1, h2, dedupFirst, dedupFirstAux]

theorem parseInstruction_enhanced_error_witness :
    modelRegistry.findSome? (fun handler => parseCommand handler (jstr "zzzz")) = none ∧
    (∃ e, parseInstruction modelRegistry (jstr "zzzz") = Except.error e ∧
      e.suggestions = (dedupFirst
        ((findMatches (jstr "zzzz") (allCommandsOf modelRegistry) 3 (3/10)).map
            (fun m => m.item) ++
         (findMatches (jstr "zzzz") (allExamplesOf modelRegistry) 3 (2/10)).map
            (fun m => m.item))).take 5 ∧
      e.type = ErrorType.command_not_found ∧
      e.originalInput = jstr "zzzz" ∧
      (findMatches (jstr "zzzz") (allCommandsOf modelRegistry) 3 (3/10) = [] →
        findMatches (jstr "zzzz") (allExamplesOf modelRegistry) 3 (2/10) = [] →
        e.suggestions = [] ∧
        e.message = jstr "Could not understand the instruction: \"" ++ jstr "zzzz" ++
          jstr "\"" ++ genericHelpTail)) :=
  ⟨by with_unfolding_all decide,
    parseInstruction_enhanced_error modelRegistry (jstr "zzzz") (by with_unfolding_all decide)⟩

/-- C9 (on the model catalog; the concrete catalogs of the application are
not part of the provided source): parsing any example of any registered
definition succeeds and yields a ParseResult whose command is that
definition's own command. -/
theorem modelRegistry_round_trip :
    ∀ handler ∈ modelRegistry, ∀ d ∈ handler, ∀ e ∈ d.examples,
      (parseInstruction modelRegistry e).toOption.map (fun r => r.command) =
        some d.command := by
  with_unfolding_all decide

theorem modelRegistry_round_trip_witness :
    (parseInstruction modelRegistry (jstr "crear sesión")).toOption.map (fun r => r.command) =
      some createSessionDef.command :=
  modelRegistry_round_trip simulatorCatalog (by simp [modelRegistry])
    createSessionDef (by simp [simulatorCatalog])
    (jstr "crear sesión") (by simp [createSessionDef])
